import Mathlib

/-!
Verification development for the arcade driving game (src/script.js with the
module variants src/js/controls.js and src/js/ui.js).  The JavaScript is
embedded shallowly over `ℚ`: every numeric constant of the source is kept
exactly, `Math.sqrt`-guarded comparisons are replaced by the equivalent
squared comparisons, and the external physics engine's integration step
(invoked as `world.step(timeStep)`) is modelled from the spec as a
semi-implicit Euler integrator.
-/

namespace Arcade

/-! ## Boost resource model (src/js/ui.js `updateBoost`, src/js/controls.js
`handleKeyDown`/`handleKeyUp`, Space key path).

State: module globals `boostAmount` and `isBoosting`;
constants `maxBoost = 4.0`, `boostDrainRate = 1.0`, `boostRefillRate = 0.5`. -/

structure BoostState where
  amount : ℚ
  boosting : Bool
  deriving Repr, DecidableEq

/-- Initial globals: `boostAmount = 4.0`, `isBoosting = false`. -/
def initBoost : BoostState := ⟨4, false⟩

/-- `handleKeyDown` Space branch (controls.js lines 23-37): start boosting
only if `boostAmount > 0`; the amount itself is not touched. -/
def handleKeyDownSpace (st : BoostState) : BoostState :=
  if st.amount > 0 then { st with boosting := true } else st

/-- `handleKeyUp` Space branch: unconditionally stop boosting. -/
def handleKeyUpSpace (st : BoostState) : BoostState :=
  { st with boosting := false }

/-- First `if` of `updateBoost` (ui.js lines 63-77): drain at
`boostDrainRate = 1` while boosting; on reaching 0 clamp and force
`isBoosting = false`. -/
def drainBoost (dt : ℚ) (st : BoostState) : BoostState :=
  if st.boosting ∧ st.amount > 0 then
    if st.amount - 1 * dt ≤ 0 then ⟨0, false⟩
    else ⟨st.amount - 1 * dt, st.boosting⟩
  else st

/-- Second `if` of `updateBoost` (ui.js lines 80-85): refill at
`boostRefillRate = 1/2` while not boosting, clamped at `maxBoost = 4`. -/
def refillBoost (dt : ℚ) (st : BoostState) : BoostState :=
  if ¬st.boosting ∧ st.amount < 4 then
    if st.amount + (1/2) * dt > 4 then ⟨4, st.boosting⟩
    else ⟨st.amount + (1/2) * dt, st.boosting⟩
  else st

/-- `updateBoost(deltaTime)` (ui.js lines 62-104): the two `if` statements
run in sequence inside the one function, so a drain that empties the tank is
followed by a refill in the same call. -/
def updateBoost (dt : ℚ) (st : BoostState) : BoostState :=
  refillBoost dt (drainBoost dt st)

/-- One interleaved input to the boost resource: a Space keydown, a Space
keyup, or a per-tick `updateBoost` call with elapsed time `dt`. -/
inductive BoostOp where
  | down : BoostOp
  | up : BoostOp
  | update (dt : ℚ) : BoostOp
  deriving Repr, DecidableEq

def applyBoostOp (op : BoostOp) (st : BoostState) : BoostState :=
  match op with
  | .down => handleKeyDownSpace st
  | .up => handleKeyUpSpace st
  | .update dt => updateBoost dt st

def runBoost (ops : List BoostOp) : BoostState :=
  ops.foldl (fun st op => applyBoostOp op st) initBoost

/-- A boost operation is valid when any elapsed time it carries is
nonnegative. -/
def BoostOp.valid : BoostOp → Prop
  | .update dt => 0 ≤ dt
  | _ => True

instance : DecidablePred BoostOp.valid := by
  intro op; cases op <;> simp [BoostOp.valid] <;> infer_instance

def boostInv (st : BoostState) : Prop := 0 ≤ st.amount ∧ st.amount ≤ 4

theorem boostInv_keyDown (st : BoostState) (h : boostInv st) :
    boostInv (handleKeyDownSpace st) := by
  unfold handleKeyDownSpace
  split <;> exact h

theorem boostInv_keyUp (st : BoostState) (h : boostInv st) :
    boostInv (handleKeyUpSpace st) := by
  exact h

theorem boostInv_drain (dt : ℚ) (hdt : 0 ≤ dt) (st : BoostState)
    (h : boostInv st) : boostInv (drainBoost dt st) := by
  obtain ⟨h0, h4⟩ := h
  unfold drainBoost boostInv
  split
  · split
    · exact ⟨by norm_num, by norm_num⟩
    · rename_i hgt
      push_neg at hgt
      refine ⟨?_, ?_⟩
      · show (0:ℚ) ≤ st.amount - 1 * dt
        linarith
      · show st.amount - 1 * dt ≤ 4
        linarith
  · exact ⟨h0, h4⟩

theorem boostInv_refill (dt : ℚ) (hdt : 0 ≤ dt) (st : BoostState)
    (h : boostInv st) : boostInv (refillBoost dt st) := by
  obtain ⟨h0, h4⟩ := h
  unfold refillBoost boostInv
  split
  · split
    · exact ⟨by norm_num, by norm_num⟩
    · rename_i hnot
      push_neg at hnot
      refine ⟨?_, ?_⟩
      · show (0:ℚ) ≤ st.amount + 1/2 * dt
        linarith
      · exact hnot
  · exact ⟨h0, h4⟩

theorem boostInv_update (dt : ℚ) (hdt : 0 ≤ dt) (st : BoostState)
    (h : boostInv st) : boostInv (updateBoost dt st) :=
  boostInv_refill dt hdt _ (boostInv_drain dt hdt st h)

theorem boostInv_apply (op : BoostOp) (hop : op.valid) (st : BoostState)
    (h : boostInv st) : boostInv (applyBoostOp op st) := by
  cases op with
  | down => exact boostInv_keyDown st h
  | up => exact boostInv_keyUp st h
  | update dt => exact boostInv_update dt hop st h

/-- **C1.** For every sequence of boost start/stop inputs (Space
keydown/keyup) interleaved with per-tick `updateBoost(dt)` calls with
`dt ≥ 0`, the boost amount remains within `[0, 4]`; moreover every single
operation that mutates the amount preserves `0 ≤ amount ≤ 4`. -/
theorem boost_amount_in_range (ops : List BoostOp)
    (hops : ∀ op ∈ ops, op.valid) :
    (0 ≤ (runBoost ops).amount ∧ (runBoost ops).amount ≤ 4) ∧
    ∀ (st : BoostState) (op : BoostOp), op.valid →
      0 ≤ st.amount → st.amount ≤ 4 →
      0 ≤ (applyBoostOp op st).amount ∧ (applyBoostOp op st).amount ≤ 4 := by
  constructor
  · have : ∀ (l : List BoostOp) (st : BoostState), (∀ op ∈ l, op.valid) →
        boostInv st → boostInv (l.foldl (fun st op => applyBoostOp op st) st) := by
      intro l
      induction l with
      | nil => intro st _ h; exact h
      | cons op rest ih =>
        intro st hl h
        exact ih _ (fun o ho => hl o (List.mem_cons_of_mem _ ho))
          (boostInv_apply op (hl op (List.mem_cons_self _ _)) st h)
    exact this ops initBoost hops ⟨by norm_num [initBoost], by norm_num [initBoost]⟩
  · intro st op hv h0 h4
    exact boostInv_apply op hv st ⟨h0, h4⟩

/-- Witness for C1 at a concrete operation sequence: boost, run the clock
past empty, release, refill. -/
theorem boost_amount_in_range_witness :
    (∀ op ∈ [BoostOp.down, BoostOp.update 3, BoostOp.update 2,
      BoostOp.up, BoostOp.update 10], op.valid) ∧
    (0 ≤ (runBoost [BoostOp.down, BoostOp.update 3, BoostOp.update 2,
      BoostOp.up, BoostOp.update 10]).amount ∧
     (runBoost [BoostOp.down, BoostOp.update 3, BoostOp.update 2,
      BoostOp.up, BoostOp.update 10]).amount ≤ 4) :=
  ⟨by decide, (boost_amount_in_range _ (by decide)).1⟩

/-! ## Keyboard control sampling (src/js/controls.js lines 63-80,
`updateCarControls`).

The function reads the `keys` map and overwrites the module globals
`carSpeed` and `carDirection`.  Only the eight movement key codes matter. -/

structure KeyState where
  keyW : Bool
  arrowUp : Bool
  keyS : Bool
  arrowDown : Bool
  keyA : Bool
  arrowLeft : Bool
  keyD : Bool
  arrowRight : Bool
  deriving Repr, DecidableEq

/-- `updateCarControls()`: reset `carSpeed`/`carDirection` to 0, then apply
the four `if` statements in source order; a later assignment overwrites an
earlier one.  Returns `(carSpeed, carDirection)`. -/
def updateCarControls (k : KeyState) : ℚ × ℚ :=
  let carSpeed : ℚ := 0
  let carDirection : ℚ := 0
  let carSpeed := if k.keyW ∨ k.arrowUp then 10 else carSpeed
  let carSpeed := if k.keyS ∨ k.arrowDown then -10 else carSpeed
  let carDirection := if k.keyA ∨ k.arrowLeft then -1 else carDirection
  let carDirection := if k.keyD ∨ k.arrowRight then 1 else carDirection
  (carSpeed, carDirection)

/-- **C9.** `updateCarControls` is total and deterministic over key states
(it is a function); after every call the throttle target is exactly one of
{-10, 0, +10} and the steering value one of {-1, 0, +1}; when forward and
backward keys are both held the backward key wins (`carSpeed = -10`), and
when left and right keys are both held the right key wins
(`carDirection = 1`). -/
theorem updateCarControls_range (k : KeyState) :
    ((updateCarControls k).1 = -10 ∨ (updateCarControls k).1 = 0 ∨
      (updateCarControls k).1 = 10) ∧
    ((updateCarControls k).2 = -1 ∨ (updateCarControls k).2 = 0 ∨
      (updateCarControls k).2 = 1) ∧
    ((k.keyW ∨ k.arrowUp) → (k.keyS ∨ k.arrowDown) →
      (updateCarControls k).1 = -10) ∧
    ((k.keyA ∨ k.arrowLeft) → (k.keyD ∨ k.arrowRight) →
      (updateCarControls k).2 = 1) := by
  obtain ⟨w, u, s, d, a, l, r, ri⟩ := k
  revert w u s d a l r ri
  decide

/-- Witness for C9: all movement keys held at once gives reverse throttle
and right steering. -/
theorem updateCarControls_range_witness :
    (updateCarControls ⟨true, true, true, true, true, true, true, true⟩).1
      = -10 ∧
    (updateCarControls ⟨true, true, true, true, true, true, true, true⟩).2
      = 1 :=
  ⟨(updateCarControls_range _).2.2.1 (Or.inl rfl) (Or.inl rfl),
   (updateCarControls_range _).2.2.2 (Or.inl rfl) (Or.inl rfl)⟩

/-! ## Delivery mission state machine (src/script.js lines 1129-1195,
`updateDeliverySystem`).

Constants: `pickupLocation = (30, 30)`, `deliveryLocation = (-40, -40)`,
`pickupRequired = 5`, `deliveryRadius = 8`.  The source compares
`Math.sqrt(dx² + dz²) < deliveryRadius`; both sides are nonnegative, so this
is embedded as the equivalent squared comparison `dx² + dz² < 64`.  The
3-second `setTimeout` reset of the `delivered` state is asynchronous and is
outside the per-tick function modelled here. -/

inductive DState where
  | idle
  | picking_up
  | has_package
  | delivered
  deriving Repr, DecidableEq

structure DeliveryState where
  dstate : DState
  pickupTimer : ℚ
  deriving Repr, DecidableEq

def pickupLocation : ℚ × ℚ := (30, 30)

def deliveryLocation : ℚ × ℚ := (-40, -40)

/-- Squared planar distance from the car (wrapper) position to a point. -/
def distSqTo (p : ℚ × ℚ) (carX carZ : ℚ) : ℚ :=
  (carX - p.1) ^ 2 + (carZ - p.2) ^ 2

/-- `updateDeliverySystem(deltaTime)` state transition, given the car
wrapper's planar position. -/
def updateDeliverySystem (dt carX carZ : ℚ) (st : DeliveryState) :
    DeliveryState :=
  if st.dstate = DState.idle ∨ st.dstate = DState.picking_up then
    if distSqTo pickupLocation carX carZ < 64 then
      let timer := st.pickupTimer + dt
      if timer ≥ 5 then ⟨DState.has_package, 0⟩
      else ⟨DState.picking_up, timer⟩
    else if st.dstate = DState.picking_up then ⟨DState.idle, 0⟩
    else st
  else if st.dstate = DState.has_package then
    if distSqTo deliveryLocation carX carZ < 64 then
      ⟨DState.delivered, st.pickupTimer⟩
    else st
  else st

/-- **C10.** For every tick in state `picking_up` in which the car's planar
distance to the pickup location is at least `deliveryRadius = 8`
(equivalently, squared distance at least 64), the state returns to `idle`
and `pickupTimer` is reset to 0 — partial pickup progress is never retained
across an exit from the pickup zone. -/
theorem picking_up_exit_resets (dt carX carZ : ℚ) (st : DeliveryState)
    (hst : st.dstate = DState.picking_up)
    (hfar : 64 ≤ distSqTo pickupLocation carX carZ) :
    updateDeliverySystem dt carX carZ st = ⟨DState.idle, 0⟩ := by
  unfold updateDeliverySystem
  rw [if_pos (Or.inr hst), if_neg (not_lt.mpr hfar), if_pos hst]

/-- Witness for C10: leaving the pickup zone at distance 10 with 3 seconds
of accumulated pickup progress resets to idle with a zero timer. -/
theorem picking_up_exit_resets_witness :
    updateDeliverySystem (1/60) 40 30 ⟨DState.picking_up, 3⟩
      = ⟨DState.idle, 0⟩ :=
  picking_up_exit_resets (1/60) 40 30 ⟨DState.picking_up, 3⟩ rfl
    (by norm_num [distSqTo, pickupLocation])

/-! ## Quaternions, vectors, and the physics-to-visual sync
(src/script.js lines 1468-1475; offset computed once in
src/js/physics.js `createCarPhysicsBody`, lines 41-52). -/

@[ext]
structure Vec3 where
  x : ℚ
  y : ℚ
  z : ℚ
  deriving Repr, DecidableEq

@[ext]
structure Quat where
  x : ℚ
  y : ℚ
  z : ℚ
  w : ℚ
  deriving Repr, DecidableEq

def vsub (a b : Vec3) : Vec3 := ⟨a.x - b.x, a.y - b.y, a.z - b.z⟩

/-- Hamilton product of two quaternions. -/
def qmul (a b : Quat) : Quat :=
  ⟨a.w * b.x + a.x * b.w + a.y * b.z - a.z * b.y,
   a.w * b.y - a.x * b.z + a.y * b.w + a.z * b.x,
   a.w * b.z + a.x * b.y - a.y * b.x + a.z * b.w,
   a.w * b.w - a.x * b.x - a.y * b.y - a.z * b.z⟩

def qconj (q : Quat) : Quat := ⟨-q.x, -q.y, -q.z, q.w⟩

/-- Rotation of a vector by a unit quaternion, written as the sandwich
product `q ⊗ (v, 0) ⊗ conj q` — the mathematical reading of the spec's
"rotate the stored `PhysicsVisualOffset` by that orientation". -/
def qrot (q : Quat) (v : Vec3) : Vec3 :=
  let r := qmul (qmul q ⟨v.x, v.y, v.z, 0⟩) (qconj q)
  ⟨r.x, r.y, r.z⟩

/-- The renderer's `Vector3.applyQuaternion`, used by the sync code at
script.js line 1474 via `rotatedOffset.applyQuaternion(...)` (library
function, translated from its published component formula). -/
def applyQuaternion (q : Quat) (v : Vec3) : Vec3 :=
  let ix := q.w * v.x + q.y * v.z - q.z * v.y
  let iy := q.w * v.y + q.z * v.x - q.x * v.z
  let iz := q.w * v.z + q.x * v.y - q.y * v.x
  let iw := -q.x * v.x - q.y * v.y - q.z * v.z
  ⟨ix * q.w + iw * (-q.x) + iy * (-q.z) - iz * (-q.y),
   iy * q.w + iw * (-q.y) + iz * (-q.x) - ix * (-q.z),
   iz * q.w + iw * (-q.z) + ix * (-q.y) - iy * (-q.x)⟩

theorem applyQuaternion_eq_qrot (q : Quat) (v : Vec3) :
    applyQuaternion q v = qrot q v := by
  ext <;> simp [applyQuaternion, qrot, qmul, qconj] <;> ring

/-- A visual transform: the `carWrapper` node's position and quaternion. -/
@[ext]
structure Pose where
  pos : Vec3
  quat : Quat
  deriving Repr, DecidableEq

/-- script.js lines 1468-1475: copy the body quaternion into the wrapper,
rotate the stored `carPhysicsOffset` by that quaternion, and set the wrapper
position to the body position minus the rotated offset.  The previous
wrapper pose is the node being overwritten. -/
def syncVisual (bodyPos : Vec3) (bodyQuat : Quat) (offset : Vec3)
    (_oldWrapper : Pose) : Pose :=
  { quat := bodyQuat,
    pos := vsub bodyPos (applyQuaternion bodyQuat offset) }

/-- **C4.** On every tick the visual transform is set to orientation = body
orientation and position = body position minus the fixed offset rotated by
the body orientation (the sandwich-product rotation), computed fresh from
the body state: the result does not depend on the previous wrapper pose,
and if the body is held fixed, repeated application yields exactly the same
pose every tick — no drift. -/
theorem syncVisual_formula (bodyPos : Vec3) (bodyQuat : Quat) (offset : Vec3)
    (oldW oldW' : Pose) :
    (syncVisual bodyPos bodyQuat offset oldW).quat = bodyQuat ∧
    (syncVisual bodyPos bodyQuat offset oldW).pos
      = vsub bodyPos (qrot bodyQuat offset) ∧
    syncVisual bodyPos bodyQuat offset oldW
      = syncVisual bodyPos bodyQuat offset oldW' ∧
    syncVisual bodyPos bodyQuat offset
        (syncVisual bodyPos bodyQuat offset oldW)
      = syncVisual bodyPos bodyQuat offset oldW := by
  refine ⟨rfl, ?_, rfl, rfl⟩
  simp [syncVisual, applyQuaternion_eq_qrot]

/-! ## Leveling correction (src/script.js lines 1366-1372).

The code calls the engine's `quaternion.toEuler(euler)` and rebuilds the
orientation with `quaternion.setFromEuler(0, euler.y, 0)`, then zeroes the X
and Z components of the angular velocity.  Whatever heading angle `euler.y`
the extraction produces, `setFromEuler(0, y, 0)` yields the quaternion
`(0, sin(y/2), 0, cos(y/2))`; since sine and cosine are transcendental, the
half-angle pair is abstracted as parameters `(hs, hc)` standing for
`(sin(euler.y/2), cos(euler.y/2))` — the theorem below holds for every such
pair, hence for every input orientation. -/

/-- The rigid-body fields touched by the leveling correction. -/
@[ext]
structure BodyRot where
  quat : Quat
  angX : ℚ
  angY : ℚ
  angZ : ℚ
  deriving Repr, DecidableEq

/-- The engine's `setFromEuler(0, y, 0)` with `hs = sin(y/2)`,
`hc = cos(y/2)`: all cross terms vanish, leaving `(0, hs, 0, hc)`. -/
def setFromEulerY (hs hc : ℚ) : Quat := ⟨0, hs, 0, hc⟩

/-- The per-tick leveling correction: rebuild the orientation from the
extracted yaw alone and zero the X/Z angular velocity. -/
def levelCorrection (hs hc : ℚ) (b : BodyRot) : BodyRot :=
  { b with quat := setFromEulerY hs hc, angX := 0, angZ := 0 }

/-- **C8.** For any input orientation (any extracted heading half-angle pair
`(hs, hc)`) and any input angular velocity, after the leveling correction
the orientation's X and Z quaternion components are exactly zero, the X and
Z angular velocities are exactly zero, and the resulting rotation fixes the
vertical axis (it maps `(0,1,0)` to `|q|² • (0,1,0)` under the unnormalized
sandwich product) — i.e. pitch and roll are exactly zero, independent of
any collision impulse that produced the input state. -/
theorem levelCorrection_zeroes_pitch_roll (hs hc : ℚ) (b : BodyRot) :
    (levelCorrection hs hc b).quat.x = 0 ∧
    (levelCorrection hs hc b).quat.z = 0 ∧
    (levelCorrection hs hc b).angX = 0 ∧
    (levelCorrection hs hc b).angZ = 0 ∧
    qrot (levelCorrection hs hc b).quat ⟨0, 1, 0⟩
      = ⟨0, hs ^ 2 + hc ^ 2, 0⟩ := by
  refine ⟨rfl, rfl, rfl, rfl, ?_⟩
  ext <;> (simp [levelCorrection, setFromEulerY, qrot, qmul, qconj]; try ring)

/-! ## The per-tick vehicle simulation (src/script.js `animate`,
lines 1290-1553, physics portion lines 1316-1475).

Per `animate` call, in source order: `world.step(timeStep)` (line 1318),
the leveling correction (lines 1366-1372), the force/torque application
(lines 1378-1466, reading the module globals `carSpeed`, `carDirection`,
`isBoosting`), the visual sync (lines 1468-1475), and the HUD updates
(lines 1548-1551).  Constants from the source: `timeStep = 1/60`, body mass
5 (physics.js line 55), acceleration rate 0.08, drive constant 300, drag
150, grip 150, idle friction 50, idle decay 0.9, vertical damping 0.8 below
0.5, turn constant 15, centering 70, `maxAngularSpeed = 2.5`.

The body's orientation is the pure-yaw quaternion `(0, s, 0, c)`: the
leveling correction rebuilds it from the extracted heading every tick (see
`levelCorrection` above), and the X/Z angular velocity is zeroed there and
locked by `angularFactor = (0,1,0)` (physics.js line 80), so a single
half-angle pair `(s, c)` (kept unnormalized; every use divides by
`s² + c²`, which equals normalize-then-rotate exactly) and the scalar yaw
rate `w` describe the rotational state.

The engine's integration step is external (cannon.js).  Modelled from the
spec (§6 `stepSimulation(dt)`, glossary "advanced by a physics engine's
integrator") as one semi-implicit Euler step of the applied force and
torque: velocity += force/mass·dt, yaw rate += torque·invInertiaY·dt,
then position and orientation advance with the new velocities, and the
accumulated force/torque are cleared.  Gravity is cancelled by the ground
contact (the car rests on the plane; no obstacles), and the engine's small
linear/angular damping factors (0.01/0.05 per second) are omitted; the
vertical inertia component `invInertiaY` depends on the loaded asset's
bounding box, so it is a parameter `invI`. -/

/-- The control globals read by the force/torque code: `carSpeed`
(throttle target), `carDirection` (steering), `isBoosting`. -/
structure Input where
  spd : ℚ
  dir : ℚ
  boost : Bool
  deriving Repr, DecidableEq

/-- The per-tick mutable state: body orientation `(0, s, 0, c)`, linear
velocity, position, yaw angular velocity `w`, the smoothed
`currentAcceleration`, and the force/torque accumulated for the next
engine step. -/
@[ext]
structure Car where
  s : ℚ
  c : ℚ
  vx : ℚ
  vy : ℚ
  vz : ℚ
  px : ℚ
  py : ℚ
  pz : ℚ
  w : ℚ
  acc : ℚ
  fx : ℚ
  fz : ℚ
  tau : ℚ
  deriving Repr, DecidableEq

/-- `world.step(timeStep)` (script.js line 1318), modelled from the spec as
a semi-implicit Euler step: `dt/m = (1/60)/5`, so `force/300`; quaternion
update `q += (dt/2)·(0,w,0,0) ⊗ q` with the new yaw rate; accumulated
force and torque cleared after integration. -/
def stepPhase (invI : ℚ) (st : Car) : Car :=
  { st with
    vx := st.vx + st.fx / 300,
    vz := st.vz + st.fz / 300,
    w := st.w + st.tau * invI * (1/60),
    s := st.s + (1/120) * st.c * (st.w + st.tau * invI * (1/60)),
    c := st.c - (1/120) * st.s * (st.w + st.tau * invI * (1/60)),
    px := st.px + (st.vx + st.fx / 300) * (1/60),
    py := st.py + st.vy * (1/60),
    pz := st.pz + (st.vz + st.fz / 300) * (1/60),
    fx := 0, fz := 0, tau := 0 }

/-- Leveling correction (script.js lines 1366-1372) on the pure-yaw
representation: rebuilding `(0, s, 0, c)` from its extracted heading yields
the same rotation (the pair is only ever used normalized, see `fwdX` etc.),
and the X/Z angular velocities being zeroed is already captured by the
scalar `w`; so on this state representation the correction is the
identity.  Its effect on a general tilted quaternion is `levelCorrection`
above. -/
def levelPhase (st : Car) : Car := st

/-- `s² + c²`: squared norm of the body quaternion. -/
def qnormSq (st : Car) : ℚ := st.s ^ 2 + st.c ^ 2

/-- X component of `forwardVector`: local `+X` rotated by the body
quaternion (script.js lines 1375-1376), normalized. -/
def fwdX (st : Car) : ℚ := (st.c ^ 2 - st.s ^ 2) / qnormSq st

/-- Z component of `forwardVector`. -/
def fwdZ (st : Car) : ℚ := -(2 * st.s * st.c) / qnormSq st

/-- X component of `rightVector`: local `+Z` rotated by the body quaternion
(script.js lines 1414-1416). -/
def rightX (st : Car) : ℚ := 2 * st.s * st.c / qnormSq st

/-- Z component of `rightVector`. -/
def rightZ (st : Car) : ℚ := (st.c ^ 2 - st.s ^ 2) / qnormSq st

/-- `currentAcceleration += (targetAcceleration - currentAcceleration) *
0.08` (script.js lines 1379-1382). -/
def newAcc (inp : Input) (st : Car) : ℚ :=
  st.acc + (inp.spd - st.acc) * (2/25)

/-- `acceleration = currentAcceleration * 300`, doubled while boosting
(script.js lines 1384-1390). -/
def driveAcc (inp : Input) (st : Car) : ℚ :=
  newAcc inp st * 300 * (if inp.boost then 2 else 1)

/-- `currentSpeed²`: the source compares `Math.sqrt(vx² + vz²)` with
`maxSpeed = |carSpeed|`; both sides nonnegative, embedded squared. -/
def speedSq (st : Car) : ℚ := st.vx ^ 2 + st.vz ^ 2

/-- Lateral velocity: `velocity · rightVector` (script.js lines 1418-1420). -/
def latVel (st : Car) : ℚ := st.vx * rightX st + st.vz * rightZ st

/-- Force application (script.js lines 1378-1444): if `|carSpeed| > 0.1`,
accumulate drive force along `forwardVector`, the speed-cap drag
`-150·velocity` when `currentSpeed > |carSpeed|`, and the lateral grip
force `-150·latVel` along `rightVector`; otherwise decay
`currentAcceleration` by 0.9 and accumulate the idle friction
`-50·velocity`.  `applyForce(F, body.position)` acts at the center of
mass, so forces add with no induced torque. -/
def forcePhase (inp : Input) (st : Car) : Car :=
  if 1/10 < |inp.spd| then
    { st with
      acc := newAcc inp st,
      fx := st.fx + fwdX st * driveAcc inp st
        + (if inp.spd ^ 2 < speedSq st then -st.vx * 150 else 0)
        + rightX st * (-(latVel st) * 150),
      fz := st.fz + fwdZ st * driveAcc inp st
        + (if inp.spd ^ 2 < speedSq st then -st.vz * 150 else 0)
        + rightZ st * (-(latVel st) * 150) }
  else
    { st with
      acc := st.acc * (9/10),
      fx := st.fx + -st.vx * 50,
      fz := st.fz + -st.vz * 50 }

/-- Vertical damping (script.js lines 1446-1449): `velocity.y *= 0.8` when
`|velocity.y| < 0.5`, a direct velocity write. -/
def vdampPhase (st : Car) : Car :=
  if |st.vy| < 1/2 then { st with vy := st.vy * (4/5) } else st

/-- `Math.sign`. -/
def jsign (x : ℚ) : ℚ := if 0 < x then 1 else if x < 0 then -1 else 0

/-- Turning (script.js lines 1451-1466): if `|carDirection| > 0.01` and
`|carSpeed| > 0.1`, set `torque = -carDirection * carSpeed * 15` and clamp
the current yaw rate to `±maxAngularSpeed = ±2.5` when it exceeds 2.5 in
magnitude; otherwise set the centering torque `-angularVelocity.y * 70`
(and do not clamp). -/
def torquePhase (inp : Input) (st : Car) : Car :=
  if 1/100 < |inp.dir| ∧ 1/10 < |inp.spd| then
    if 5/2 < |st.w| then
      { st with tau := -inp.dir * inp.spd * 15, w := jsign st.w * (5/2) }
    else
      { st with tau := -inp.dir * inp.spd * 15 }
  else
    { st with tau := -st.w * 70 }

/-- One full `animate` tick on the body state, in source order: engine
step, leveling, forces, vertical damping, torque. -/
def tick (invI : ℚ) (inp : Input) (st : Car) : Car :=
  torquePhase inp (vdampPhase (forcePhase inp (levelPhase (stepPhase invI st))))

/-- The body position as a vector. -/
def bodyPos (st : Car) : Vec3 := ⟨st.px, st.py, st.pz⟩

/-- The body quaternion `(0, s, 0, c)`. -/
def bodyQuat (st : Car) : Quat := ⟨0, st.s, 0, st.c⟩

/-- The phases of one `animate` tick that write or read the shared
body/wrapper state. -/
inductive TickPhase where
  | engineStep
  | leveling
  | forceTorque
  | visualSync
  | uiRead
  deriving Repr, DecidableEq

/-- One full `animate` tick on body and wrapper, emitting the phase labels
in the order the source executes them (script.js: step line 1318, leveling
1366, forces/torque 1378-1466, visual sync 1468-1475, HUD reads
1548-1551). -/
def animateTick (invI : ℚ) (offset : Vec3) (inp : Input)
    (stw : Car × Pose) : (Car × Pose) × List TickPhase :=
  let a := (stepPhase invI stw.1, [TickPhase.engineStep])
  let b := (levelPhase a.1, a.2 ++ [TickPhase.leveling])
  let d := (torquePhase inp (vdampPhase (forcePhase inp b.1)),
    b.2 ++ [TickPhase.forceTorque])
  let e := ((d.1, syncVisual (bodyPos d.1) (bodyQuat d.1) offset stw.2),
    d.2 ++ [TickPhase.visualSync])
  (e.1, e.2 ++ [TickPhase.uiRead])

/-- Fields untouched by `vdampPhase`. -/
theorem vdampPhase_proj (st : Car) :
    (vdampPhase st).fx = st.fx ∧ (vdampPhase st).fz = st.fz ∧
    (vdampPhase st).acc = st.acc ∧ (vdampPhase st).w = st.w ∧
    (vdampPhase st).tau = st.tau ∧ (vdampPhase st).vx = st.vx ∧
    (vdampPhase st).vz = st.vz ∧ (vdampPhase st).s = st.s ∧
    (vdampPhase st).c = st.c := by
  unfold vdampPhase
  split <;> exact ⟨rfl, rfl, rfl, rfl, rfl, rfl, rfl, rfl, rfl⟩

/-- Fields untouched by `forcePhase`. -/
theorem forcePhase_proj (inp : Input) (st : Car) :
    (forcePhase inp st).w = st.w ∧ (forcePhase inp st).tau = st.tau ∧
    (forcePhase inp st).vx = st.vx ∧ (forcePhase inp st).vy = st.vy ∧
    (forcePhase inp st).vz = st.vz ∧ (forcePhase inp st).s = st.s ∧
    (forcePhase inp st).c = st.c := by
  unfold forcePhase
  split <;> exact ⟨rfl, rfl, rfl, rfl, rfl, rfl, rfl⟩

/-- Fields untouched by `torquePhase`. -/
theorem torquePhase_proj (inp : Input) (st : Car) :
    (torquePhase inp st).fx = st.fx ∧ (torquePhase inp st).fz = st.fz ∧
    (torquePhase inp st).acc = st.acc ∧ (torquePhase inp st).vx = st.vx ∧
    (torquePhase inp st).vy = st.vy ∧ (torquePhase inp st).vz = st.vz ∧
    (torquePhase inp st).s = st.s ∧ (torquePhase inp st).c = st.c := by
  unfold torquePhase
  split
  · split <;> exact ⟨rfl, rfl, rfl, rfl, rfl, rfl, rfl, rfl⟩
  · exact ⟨rfl, rfl, rfl, rfl, rfl, rfl, rfl, rfl⟩

/-- The initial body state: at rest, identity orientation, no accumulated
force or torque. -/
def carStart : Car := ⟨0, 1, 0, 0, 0, 0, 0, 0, 0, 0, 0, 0, 0⟩

/-- **C3 (amended).** Within every tick (bodies present), the writes happen
in the fixed order: engine step first (integrating the forces and torque
accumulated in the previous tick), then leveling correction, then
force/torque application, then visual sync, then UI/HUD reads; control
inputs are sampled by asynchronous key event handlers, not inside the tick.
In particular the visual-sync write of the wrapper transform is computed
from the body state after both that tick's force/torque application and
that tick's engine integration step. -/
theorem animate_tick_order (invI : ℚ) (offset : Vec3) (inp : Input)
    (stw : Car × Pose) :
    (animateTick invI offset inp stw).2
      = [TickPhase.engineStep, TickPhase.leveling, TickPhase.forceTorque,
         TickPhase.visualSync, TickPhase.uiRead] ∧
    (animateTick invI offset inp stw).1.2
      = syncVisual
          (bodyPos (torquePhase inp (vdampPhase (forcePhase inp
            (levelPhase (stepPhase invI stw.1))))))
          (bodyQuat (torquePhase inp (vdampPhase (forcePhase inp
            (levelPhase (stepPhase invI stw.1))))))
          offset stw.2 :=
  ⟨rfl, rfl⟩

/-- **C3 counterexample.** The claimed order (force/torque application
before the engine step within the same tick) is false: in the emitted
trace of a concrete tick, the engine step comes first, so the index of the
force/torque phase is not below the index of the engine-step phase. -/
theorem animate_tick_order_counterexample :
    ¬ ((animateTick (1/10) ⟨0, 0, 0⟩ ⟨10, 1, false⟩
        (carStart, ⟨⟨0, 0, 0⟩, ⟨0, 0, 0, 1⟩⟩)).2.indexOf
          TickPhase.forceTorque
      < (animateTick (1/10) ⟨0, 0, 0⟩ ⟨10, 1, false⟩
        (carStart, ⟨⟨0, 0, 0⟩, ⟨0, 0, 0, 1⟩⟩)).2.indexOf
          TickPhase.engineStep) := by
  decide

/-- **C6.** When `|carSpeed| ≤ 0.1` (the deadzone), the tick applies no
drive force, no speed-cap drag and no turning torque: the accumulated force
is exactly the idle friction `-50·velocity` (of the post-step velocity),
`currentAcceleration` is multiplied by 0.9, the torque is the centering
`-70·angularVelocity.y`, and the yaw rate is not clamped or otherwise
changed.  The same constant 0.1 gates the drive/drag branch and the turning
torque branch. -/
theorem deadzone_gating (invI : ℚ) (inp : Input) (st : Car)
    (h : |inp.spd| ≤ 1/10) :
    (tick invI inp st).fx = -(stepPhase invI st).vx * 50 ∧
    (tick invI inp st).fz = -(stepPhase invI st).vz * 50 ∧
    (tick invI inp st).acc = st.acc * (9/10) ∧
    (tick invI inp st).tau = -(stepPhase invI st).w * 70 ∧
    (tick invI inp st).w = (stepPhase invI st).w := by
  have hn : ¬ (1/10 < |inp.spd|) := not_lt.mpr h
  have hgate : ¬ (1/100 < |inp.dir| ∧ 1/10 < |inp.spd|) := fun hc => hn hc.2
  unfold tick levelPhase
  rw [show forcePhase inp (stepPhase invI st)
      = { stepPhase invI st with
          acc := (stepPhase invI st).acc * (9/10),
          fx := (stepPhase invI st).fx + -(stepPhase invI st).vx * 50,
          fz := (stepPhase invI st).fz + -(stepPhase invI st).vz * 50 }
    from if_neg hn]
  unfold torquePhase
  rw [if_neg hgate]
  unfold vdampPhase
  split <;>
    refine ⟨?_, ?_, ?_, ?_, ?_⟩ <;>
    show _ = _ <;>
    simp [stepPhase]

/-- Witness for C6 at `carSpeed = 0`, steering +1, a moving state. -/
theorem deadzone_gating_witness :
    (tick 1 ⟨0, 1, false⟩ ⟨0, 1, 3, 0, 2, 0, 0, 0, 1, 2, 30, 0, 6⟩).fx
      = -(stepPhase 1 ⟨0, 1, 3, 0, 2, 0, 0, 0, 1, 2, 30, 0, 6⟩).vx * 50 ∧
    (tick 1 ⟨0, 1, false⟩ ⟨0, 1, 3, 0, 2, 0, 0, 0, 1, 2, 30, 0, 6⟩).fz
      = -(stepPhase 1 ⟨0, 1, 3, 0, 2, 0, 0, 0, 1, 2, 30, 0, 6⟩).vz * 50 ∧
    (tick 1 ⟨0, 1, false⟩ ⟨0, 1, 3, 0, 2, 0, 0, 0, 1, 2, 30, 0, 6⟩).acc
      = 2 * (9/10) ∧
    (tick 1 ⟨0, 1, false⟩ ⟨0, 1, 3, 0, 2, 0, 0, 0, 1, 2, 30, 0, 6⟩).tau
      = -(stepPhase 1 ⟨0, 1, 3, 0, 2, 0, 0, 0, 1, 2, 30, 0, 6⟩).w * 70 ∧
    (tick 1 ⟨0, 1, false⟩ ⟨0, 1, 3, 0, 2, 0, 0, 0, 1, 2, 30, 0, 6⟩).w
      = (stepPhase 1 ⟨0, 1, 3, 0, 2, 0, 0, 0, 1, 2, 30, 0, 6⟩).w :=
  deadzone_gating 1 ⟨0, 1, false⟩ ⟨0, 1, 3, 0, 2, 0, 0, 0, 1, 2, 30, 0, 6⟩
    (by norm_num)

/-- **C5 (amended).** At the end of any tick whose turning branch executes
(`|carDirection| > 0.01` and `|carSpeed| > 0.1`), the yaw angular velocity
is clamped to `|ω| ≤ maxAngularSpeed = 2.5`.  This is not an invariant of
every reachable state: the clamp acts on the pre-integration yaw rate, so
the next engine step can carry `|ω|` past 2.5, and the centering branch
never clamps (see the counterexample). -/
theorem angular_clamp_after_turn (invI : ℚ) (inp : Input) (st : Car)
    (hd : 1/100 < |inp.dir|) (hs : 1/10 < |inp.spd|) :
    |(tick invI inp st).w| ≤ 5/2 := by
  unfold tick torquePhase
  rw [if_pos ⟨hd, hs⟩]
  set w1 := (vdampPhase (forcePhase inp (levelPhase (stepPhase invI st)))).w
    with hw1
  by_cases hbig : 5/2 < |w1|
  · rw [if_pos hbig]
    show |jsign w1 * (5/2)| ≤ 5/2
    have hne : w1 ≠ 0 := by
      intro h0
      rw [h0] at hbig
      norm_num at hbig
    rcases lt_or_gt_of_ne hne with hlt | hgt
    · rw [jsign, if_neg (by linarith), if_pos hlt, abs_le]
      constructor <;> norm_num
    · rw [jsign, if_pos hgt, abs_le]
      constructor <;> norm_num
  · rw [if_neg hbig]
    exact le_of_not_lt hbig

/-- Witness for C5's amended clamp bound at a fast-spinning state. -/
theorem angular_clamp_after_turn_witness :
    |(tick 1 ⟨10, 1, false⟩ ⟨0, 1, 3, 0, 2, 0, 0, 0, 9, 2, 30, 0, 6⟩).w|
      ≤ 5/2 :=
  angular_clamp_after_turn 1 ⟨10, 1, false⟩
    ⟨0, 1, 3, 0, 2, 0, 0, 0, 9, 2, 30, 0, 6⟩ (by norm_num) (by norm_num)

/-- In a turning tick, the new torque is `-dir·spd·15` and the new yaw rate
is the post-step yaw rate, clamped to `±2.5` when it exceeds 2.5. -/
theorem tick_w_tau_turn (invI : ℚ) (inp : Input) (st : Car)
    (hd : 1/100 < |inp.dir|) (hs : 1/10 < |inp.spd|) :
    (tick invI inp st).tau = -inp.dir * inp.spd * 15 ∧
    (tick invI inp st).w =
      if 5/2 < |st.w + st.tau * invI * (1/60)| then
        jsign (st.w + st.tau * invI * (1/60)) * (5/2)
      else st.w + st.tau * invI * (1/60) := by
  have hw : (vdampPhase (forcePhase inp (levelPhase (stepPhase invI st)))).w
      = st.w + st.tau * invI * (1/60) := by
    rw [(vdampPhase_proj _).2.2.2.1, (forcePhase_proj _ _).1]
    rfl
  unfold tick torquePhase
  rw [if_pos ⟨hd, hs⟩, hw]
  split <;> exact ⟨rfl, rfl⟩

/-- In a non-turning tick (steering inside its deadzone or throttle inside
the throttle deadzone), the yaw rate is the post-step yaw rate, unclamped,
and the centering torque is stored. -/
theorem tick_w_tau_center (invI : ℚ) (inp : Input) (st : Car)
    (hgate : ¬ (1/100 < |inp.dir| ∧ 1/10 < |inp.spd|)) :
    (tick invI inp st).tau = -(st.w + st.tau * invI * (1/60)) * 70 ∧
    (tick invI inp st).w = st.w + st.tau * invI * (1/60) := by
  have hw : (vdampPhase (forcePhase inp (levelPhase (stepPhase invI st)))).w
      = st.w + st.tau * invI * (1/60) := by
    rw [(vdampPhase_proj _).2.2.2.1, (forcePhase_proj _ _).1]
    rfl
  unfold tick torquePhase
  rw [if_neg hgate, hw]
  exact ⟨rfl, rfl⟩

def inpFwd : Input := ⟨10, 1, false⟩

def inpRev : Input := ⟨-10, 1, false⟩

theorem inpFwd_spd : inpFwd.spd = 10 := rfl

theorem inpFwd_dir : inpFwd.dir = 1 := rfl

/-- Full-steering forward run used by the C5 counterexample and C7:
after `n+1` ticks of `carSpeed = 10, carDirection = 1, invI = 1/10` from
rest, with `n ≤ 10`, the yaw rate is exactly `-n/4` (the clamp has not yet
engaged) and the stored torque is `-150`. -/
theorem turnRun_w (n : ℕ) (hn : n ≤ 10) :
    ((tick (1/10) inpFwd)^[n+1] carStart).w = -(n : ℚ)/4 ∧
    ((tick (1/10) inpFwd)^[n+1] carStart).tau = -150 := by
  induction n with
  | zero =>
    rw [Function.iterate_one]
    obtain ⟨ht, hw⟩ := tick_w_tau_turn (1/10) inpFwd carStart
      (by norm_num [inpFwd_spd, inpFwd_dir]) (by norm_num [inpFwd_spd, inpFwd_dir])
    refine ⟨?_, ?_⟩
    · rw [hw]
      norm_num [carStart]
    · rw [ht]
      norm_num [inpFwd_spd, inpFwd_dir]
  | succ m ih =>
    obtain ⟨hw, ht⟩ := ih (le_of_lt (Nat.lt_of_succ_le hn))
    rw [Function.iterate_succ_apply']
    obtain ⟨ht', hw'⟩ := tick_w_tau_turn (1/10) inpFwd
      ((tick (1/10) inpFwd)^[m+1] carStart)
      (by norm_num [inpFwd_spd, inpFwd_dir]) (by norm_num [inpFwd_spd, inpFwd_dir])
    have hval : ((tick (1/10) inpFwd)^[m+1] carStart).w
        + ((tick (1/10) inpFwd)^[m+1] carStart).tau * (1/10) * (1/60)
        = -((m : ℚ) + 1)/4 := by
      rw [hw, ht]
      ring
    have hm10 : (m : ℚ) + 1 ≤ 10 := by
      have : (m : ℚ) + 1 ≤ (10 : ℕ) := by
        exact_mod_cast Nat.succ_le_of_lt (Nat.lt_of_succ_le hn)
      exact_mod_cast this
    have hnoclamp : ¬ (5/2 < |(-((m : ℚ) + 1)/4)|) := by
      rw [not_lt, abs_le]
      constructor
      · have hm0 : (0 : ℚ) ≤ (m : ℚ) := Nat.cast_nonneg m
        linarith
      · have hm0 : (0 : ℚ) ≤ (m : ℚ) := Nat.cast_nonneg m
        linarith
    refine ⟨?_, ?_⟩
    · rw [hw', hval, if_neg hnoclamp]
      push_cast
      ring
    · rw [ht']
      norm_num [inpFwd_spd, inpFwd_dir]

/-- **C5 counterexample.** The claim "in every reachable state
`|angularVelocity.y| ≤ 2.5`" is false: drive with full steering for 11
ticks from rest (the yaw rate reaches the clamp value −2.5 with the turn
torque −150 still stored), then release the steering for one tick: the
engine step integrates the stored torque to −2.75, and the centering branch
does not clamp, leaving `|ω| = 2.75 > 2.5` at the end of the tick
(with `invI = 1/10`). -/
theorem angular_speed_exceeds_bound :
    (tick (1/10) ⟨10, 0, false⟩
      ((tick (1/10) inpFwd)^[11] carStart)).w = -11/4 ∧
    ¬ (|(tick (1/10) ⟨10, 0, false⟩
      ((tick (1/10) inpFwd)^[11] carStart)).w| ≤ 5/2) := by
  obtain ⟨hw, ht⟩ := turnRun_w 10 (le_refl 10)
  obtain ⟨ht', hw'⟩ := tick_w_tau_center (1/10) ⟨10, 0, false⟩
    ((tick (1/10) inpFwd)^[11] carStart) (by norm_num)
  constructor
  · rw [hw', hw, ht]
    norm_num
  · rw [hw', hw, ht]
    rw [not_le]
    rw [show ((-(10 : ℕ) : ℚ)/4 + -150 * (1/10) * (1/60) : ℚ) = -11/4 by
      push_cast; ring]
    rw [abs_of_nonpos (by norm_num)]
    norm_num

/-! ## Steering sign symmetry (C7).

Negating the throttle target conjugates the tick dynamics by the mirror
map below (reflect the yaw half-angle, the X velocity/position/force, and
negate the yaw rate, smoothed acceleration and torque): every force gate
compares only magnitudes, the torque `-dir·spd·15` flips sign with `spd`,
and the clamp and centering torque are odd in the yaw rate. -/

def negSpd (inp : Input) : Input := ⟨-inp.spd, inp.dir, inp.boost⟩

def mirror (st : Car) : Car :=
  ⟨-st.s, st.c, -st.vx, st.vy, st.vz, -st.px, st.py, st.pz,
   -st.w, -st.acc, -st.fx, st.fz, -st.tau⟩

theorem stepPhase_mirror (invI : ℚ) (st : Car) :
    stepPhase invI (mirror st) = mirror (stepPhase invI st) := by
  unfold stepPhase mirror
  ext <;> simp <;> ring

theorem forcePhase_mirror (inp : Input) (st : Car) :
    forcePhase (negSpd inp) (mirror st) = mirror (forcePhase inp st) := by
  obtain ⟨spd, dir, boost⟩ := inp
  simp only [forcePhase, negSpd, mirror, newAcc, driveAcc, speedSq, latVel,
    fwdX, fwdZ, rightX, rightZ, qnormSq, abs_neg, neg_sq]
  split_ifs <;> (ext <;> simp <;> ring)

theorem vdampPhase_mirror (st : Car) :
    vdampPhase (mirror st) = mirror (vdampPhase st) := by
  unfold vdampPhase mirror
  simp only
  split_ifs <;> rfl

theorem jsign_neg (x : ℚ) : jsign (-x) = -jsign x := by
  unfold jsign
  split_ifs <;> linarith

theorem torquePhase_mirror (inp : Input) (st : Car) :
    torquePhase (negSpd inp) (mirror st) = mirror (torquePhase inp st) := by
  unfold torquePhase negSpd mirror
  simp only [abs_neg]
  split_ifs <;> (ext <;> (simp [jsign_neg]; try ring))

theorem tick_mirror (invI : ℚ) (inp : Input) (st : Car) :
    tick invI (negSpd inp) (mirror st) = mirror (tick invI inp st) := by
  unfold tick levelPhase
  rw [stepPhase_mirror, forcePhase_mirror, vdampPhase_mirror,
    torquePhase_mirror]

theorem iterate_tick_mirror (invI : ℚ) (inp : Input) (n : ℕ) (st : Car) :
    (tick invI (negSpd inp))^[n] (mirror st)
      = mirror ((tick invI inp)^[n] st) := by
  induction n with
  | zero => rfl
  | succ m ih =>
    rw [Function.iterate_succ_apply', Function.iterate_succ_apply', ih,
      tick_mirror]

theorem mirror_carStart : mirror carStart = carStart := by
  unfold mirror carStart
  ext <;> simp

/-- Helper for C7: in the forward full-steering run with `invI = 1/10`,
from the second tick on the yaw rate stays at or below `-1/4` and the
stored torque stays `-150`. -/
theorem fwdRun_w_neg (n : ℕ) :
    ((tick (1/10) inpFwd)^[n+2] carStart).w ≤ -(1/4) ∧
    ((tick (1/10) inpFwd)^[n+2] carStart).tau = -150 := by
  induction n with
  | zero =>
    obtain ⟨hw, ht⟩ := turnRun_w 1 (by norm_num)
    rw [show (1:ℕ)+1 = 0+2 from rfl] at hw ht
    refine ⟨?_, ht⟩
    rw [hw]
    norm_num
  | succ m ih =>
    obtain ⟨hw, ht⟩ := ih
    rw [show m+1+2 = (m+2)+1 from rfl, Function.iterate_succ_apply']
    obtain ⟨ht', hw'⟩ := tick_w_tau_turn (1/10) inpFwd
      ((tick (1/10) inpFwd)^[m+2] carStart)
      (by norm_num [inpFwd_spd, inpFwd_dir]) (by norm_num [inpFwd_spd, inpFwd_dir])
    constructor
    · rw [hw', ht]
      have hpre : ((tick (1/10) inpFwd)^[m+2] carStart).w
          + (-150 : ℚ) * (1/10) * (1/60) ≤ -(1/2) := by
        linarith
      split_ifs with hbig
      · have hneg : ((tick (1/10) inpFwd)^[m+2] carStart).w
            + (-150 : ℚ) * (1/10) * (1/60) < 0 := by linarith
        rw [jsign, if_neg (by linarith), if_pos hneg]
        linarith
      · linarith
    · rw [ht']
      norm_num [inpFwd_spd, inpFwd_dir]

/-- **C7.** With steering held at +1 from the rest state, the yaw angular
velocity after N ticks under `carSpeed = -10` is exactly the negation of
its value under `carSpeed = +10` (for every inertia parameter), and from
tick 2 on both are nonzero with opposite signs (shown for `invI = 1/10`):
reversing inverts the turn direction. -/
theorem steering_sign_symmetry (invI : ℚ) (N : ℕ) :
    ((tick invI inpRev)^[N] carStart).w
      = -((tick invI inpFwd)^[N] carStart).w ∧
    (2 ≤ N → ((tick (1/10) inpFwd)^[N] carStart).w < 0 ∧
      0 < ((tick (1/10) inpRev)^[N] carStart).w) := by
  have hrev : inpRev = negSpd inpFwd := by
    unfold inpRev negSpd inpFwd
    norm_num
  have hsym : ∀ (j : ℚ), ((tick j inpRev)^[N] carStart).w
      = -((tick j inpFwd)^[N] carStart).w := by
    intro j
    conv_lhs => rw [hrev, show carStart = mirror carStart from
      mirror_carStart.symm]
    rw [iterate_tick_mirror]
    rfl
  refine ⟨hsym invI, fun hN => ?_⟩
  obtain ⟨k, hk⟩ := Nat.le.dest hN
  have hfwd : ((tick (1/10) inpFwd)^[N] carStart).w ≤ -(1/4) := by
    rw [← hk, Nat.add_comm]
    exact (fwdRun_w_neg k).1
  refine ⟨by linarith, ?_⟩
  rw [hsym (1/10)]
  linarith

/-- Witness for C7 at N = 2 ticks. -/
theorem steering_sign_symmetry_witness :
    ((tick (1/10) inpRev)^[2] carStart).w
      = -((tick (1/10) inpFwd)^[2] carStart).w ∧
    (((tick (1/10) inpFwd)^[2] carStart).w < 0 ∧
      0 < ((tick (1/10) inpRev)^[2] carStart).w) :=
  ⟨(steering_sign_symmetry (1/10) 2).1,
   (steering_sign_symmetry (1/10) 2).2 (by norm_num)⟩

/-! ## Speed under a constant throttle (C2).

Holding `carSpeed = 10`, `carDirection = 0`, no boost, from rest: the run
stays on the X axis (orientation, yaw rate, lateral and vertical velocity
all remain zero), and the forward speed follows the scalar recurrences
below.  The force balance `300·acc = 150·v` puts the equilibrium at
`v = 2·|carSpeed| = 20`, not at `|carSpeed|`. -/

def inpCruise : Input := ⟨10, 0, false⟩

def cruiseRun (n : ℕ) : Car := (tick (1/10) inpCruise)^[n] carStart

/-- The smoothed `currentAcceleration` after `n` cruise ticks. -/
def aSeq : ℕ → ℚ
  | 0 => 0
  | n + 1 => aSeq n + (10 - aSeq n) * (2/25)

/-- The forward velocity after `n` cruise ticks: each engine step
integrates the previous tick's drive force `300·acc` and, when the speed
exceeded the target 10, the drag `-150·v` (with `dt/m = 1/300`). -/
def vSeq : ℕ → ℚ
  | 0 => 0
  | n + 1 => vSeq n + aSeq n - (if 100 < (vSeq n) ^ 2 then vSeq n / 2 else 0)

/-- One cruise tick from any on-axis state. -/
theorem tick_cruise (st : Car) (hs : st.s = 0) (hc : st.c = 1)
    (hvy : st.vy = 0) (hvz : st.vz = 0) (hw : st.w = 0) (htau : st.tau = 0)
    (hfz : st.fz = 0) :
    (tick (1/10) inpCruise st).s = 0 ∧
    (tick (1/10) inpCruise st).c = 1 ∧
    (tick (1/10) inpCruise st).vy = 0 ∧
    (tick (1/10) inpCruise st).vz = 0 ∧
    (tick (1/10) inpCruise st).w = 0 ∧
    (tick (1/10) inpCruise st).tau = 0 ∧
    (tick (1/10) inpCruise st).vx = st.vx + st.fx / 300 ∧
    (tick (1/10) inpCruise st).acc = st.acc + (10 - st.acc) * (2/25) ∧
    (tick (1/10) inpCruise st).fz = 0 ∧
    (tick (1/10) inpCruise st).fx
      = 300 * (st.acc + (10 - st.acc) * (2/25))
        + (if 100 < (st.vx + st.fx / 300) ^ 2
           then -((st.vx + st.fx / 300) * 150) else 0) := by
  obtain ⟨s, c, vx, vy, vz, px, py, pz, w, acc, fx, fz, tau⟩ := st
  simp only at hs hc hvy hvz hw htau hfz
  subst hs hc hvy hvz hw htau hfz
  simp only [tick, stepPhase, levelPhase, forcePhase, vdampPhase,
    torquePhase, inpCruise, driveAcc, newAcc, speedSq, latVel, fwdX, fwdZ,
    rightX, rightZ, qnormSq, jsign]
  norm_num
  split_ifs <;> norm_num <;> ring

/-- Characterization of the cruise run by the scalar sequences. -/
theorem cruiseRun_spec (n : ℕ) :
    (cruiseRun n).s = 0 ∧ (cruiseRun n).c = 1 ∧ (cruiseRun n).vy = 0 ∧
    (cruiseRun n).vz = 0 ∧ (cruiseRun n).w = 0 ∧ (cruiseRun n).tau = 0 ∧
    (cruiseRun n).vx = vSeq n ∧ (cruiseRun n).acc = aSeq n ∧
    (cruiseRun n).fz = 0 ∧
    (cruiseRun n).fx = 300 * aSeq n
      + (if 100 < (vSeq n) ^ 2 then -(vSeq n * 150) else 0) := by
  induction n with
  | zero =>
    refine ⟨rfl, rfl, rfl, rfl, rfl, rfl, rfl, rfl, rfl, ?_⟩
    show (0:ℚ) = 300 * aSeq 0 + (if 100 < (vSeq 0) ^ 2 then _ else 0)
    rw [show aSeq 0 = 0 from rfl, show vSeq 0 = 0 from rfl]
    norm_num
  | succ m ih =>
    obtain ⟨hs, hc, hvy, hvz, hw, htau, hvx, hacc, hfz, hfx⟩ := ih
    have hstep := tick_cruise (cruiseRun m) hs hc hvy hvz hw htau hfz
    obtain ⟨gs, gc, gvy, gvz, gw, gtau, gvx, gacc, gfz, gfx⟩ := hstep
    have hrun : cruiseRun (m+1) = tick (1/10) inpCruise (cruiseRun m) :=
      Function.iterate_succ_apply' _ _ _
    have hvx' : (cruiseRun m).vx + (cruiseRun m).fx / 300 = vSeq (m+1) := by
      rw [hvx, hfx, vSeq]
      split_ifs <;> ring
    refine ⟨?_, ?_, ?_, ?_, ?_, ?_, ?_, ?_, ?_, ?_⟩
    · rw [hrun]; exact gs
    · rw [hrun]; exact gc
    · rw [hrun]; exact gvy
    · rw [hrun]; exact gvz
    · rw [hrun]; exact gw
    · rw [hrun]; exact gtau
    · rw [hrun, gvx, hvx']
    · rw [hrun, gacc, hacc, aSeq]
    · rw [hrun]; exact gfz
    · rw [hrun, gfx, hvx', hacc, aSeq]

theorem aSeq_closed (n : ℕ) : aSeq n = 10 - 10 * (23/25 : ℚ) ^ n := by
  induction n with
  | zero => norm_num [aSeq]
  | succ m ih =>
    rw [aSeq, ih, pow_succ]
    ring

theorem aSeq_bounds (n : ℕ) : 0 ≤ aSeq n ∧ aSeq n ≤ 10 := by
  rw [aSeq_closed]
  have h0 : (0:ℚ) ≤ (23/25 : ℚ) ^ n := by positivity
  have h1 : (23/25 : ℚ) ^ n ≤ 1 := pow_le_one₀ (by norm_num) (by norm_num)
  constructor <;> nlinarith

/-- After tick 9 the smoothed acceleration has reached at least 5. -/
theorem aSeq_ge_five (n : ℕ) (hn : 9 ≤ n) : 5 ≤ aSeq n := by
  rw [aSeq_closed]
  have hq : (23/25 : ℚ) ^ n ≤ (23/25 : ℚ) ^ 9 :=
    pow_le_pow_of_le_one (by norm_num) (by norm_num) hn
  have h9 : (23/25 : ℚ) ^ 9 ≤ 1/2 := by norm_num
  nlinarith

/-- After tick 64 the smoothed acceleration has reached at least 9.95. -/
theorem aSeq_ge_995 (n : ℕ) (hn : 64 ≤ n) : 199/20 ≤ aSeq n := by
  rw [aSeq_closed]
  have hq : (23/25 : ℚ) ^ n ≤ (23/25 : ℚ) ^ 64 :=
    pow_le_pow_of_le_one (by norm_num) (by norm_num) hn
  have h64 : (23/25 : ℚ) ^ 64 ≤ 1/200 := by norm_num
  nlinarith

theorem vSeq_bounds (n : ℕ) : 0 ≤ vSeq n ∧ vSeq n ≤ 20 := by
  induction n with
  | zero => norm_num [vSeq]
  | succ m ih =>
    obtain ⟨h0, h20⟩ := ih
    obtain ⟨ha0, ha10⟩ := aSeq_bounds m
    rw [vSeq]
    split_ifs with hdrag
    · constructor <;> nlinarith
    · push_neg at hdrag
      have hv10 : vSeq m ≤ 10 := by nlinarith
      constructor <;> nlinarith

/-- Exact value of the forward speed at tick 9 (the nine steps unfolded;
the drag branch fires at steps 7 and 9). -/
theorem vSeq_nine : vSeq 9 = 358441072013/30517578125 := by
  have h1 : vSeq 1 = 0 := by
    rw [show (1:ℕ) = 0+1 from rfl, vSeq]
    norm_num [vSeq, aSeq]
  have h2 : vSeq 2 = 4/5 := by
    rw [show (2:ℕ) = 1+1 from rfl, vSeq, h1, aSeq_closed, if_neg (by norm_num)]
    norm_num
  have h3 : vSeq 3 = 292/125 := by
    rw [show (3:ℕ) = 2+1 from rfl, vSeq, h2, aSeq_closed, if_neg (by norm_num)]
    norm_num
  have h4 : vSeq 4 = 14216/3125 := by
    rw [show (4:ℕ) = 3+1 from rfl, vSeq, h3, aSeq_closed, if_neg (by norm_num)]
    norm_num
  have h5 : vSeq 5 = 576968/78125 := by
    rw [show (5:ℕ) = 4+1 from rfl, vSeq, h4, aSeq_closed, if_neg (by norm_num)]
    norm_num
  have h6 : vSeq 6 = 21082764/1953125 := by
    rw [show (6:ℕ) = 5+1 from rfl, vSeq, h5, aSeq_closed, if_neg (by norm_num)]
    norm_num
  have h7 : vSeq 7 = 455744022/48828125 := by
    rw [show (7:ℕ) = 6+1 from rfl, vSeq, h6, aSeq_closed, if_pos (by norm_num)]
    norm_num
  have h8 : vSeq 8 = 16790980906/1220703125 := by
    rw [show (8:ℕ) = 7+1 from rfl, vSeq, h7, aSeq_closed, if_neg (by norm_num)]
    norm_num
  rw [show (9:ℕ) = 8+1 from rfl, vSeq, h8, aSeq_closed, if_pos (by norm_num)]
  norm_num

/-- From tick 9 on the speed stays strictly above the drag threshold 10. -/
theorem vSeq_gt_ten (n : ℕ) (hn : 9 ≤ n) : 10 < vSeq n := by
  induction n with
  | zero => omega
  | succ m ih =>
    rcases Nat.lt_or_ge m 9 with hm | hm
    · have hm9 : m + 1 = 9 := by omega
      rw [hm9, vSeq_nine]
      norm_num
    · have hv := ih hm
      have ha := aSeq_ge_five m (by omega)
      rw [vSeq, if_pos (by nlinarith)]
      nlinarith

/-- Geometric closing of the gap to the 19.9 floor from tick 64 on. -/
theorem vSeq_deficit (k : ℕ) :
    199/10 - (99/10) * (1/2 : ℚ) ^ k ≤ vSeq (64 + k) := by
  induction k with
  | zero =>
    have := vSeq_gt_ten 64 (by norm_num)
    norm_num
    linarith
  | succ j ih =>
    have hv := vSeq_gt_ten (64 + j) (by omega)
    have ha := aSeq_ge_995 (64 + j) (by omega)
    have hstep : vSeq (64 + (j+1)) = vSeq (64+j) / 2 + aSeq (64+j) := by
      rw [show 64 + (j+1) = (64+j) + 1 from rfl, vSeq,
        if_pos (by nlinarith)]
      ring
    rw [hstep, pow_succ]
    nlinarith

/-- From tick 71 on the forward speed is at least 19.8. -/
theorem vSeq_ge_198 (n : ℕ) (hn : 71 ≤ n) : 99/5 ≤ vSeq n := by
  obtain ⟨k, hk⟩ := Nat.le.dest (show 64 ≤ n by omega)
  have hk7 : 7 ≤ k := by omega
  have hd := vSeq_deficit k
  rw [hk] at hd
  have hpow : (1/2 : ℚ) ^ k ≤ (1/2 : ℚ) ^ 7 :=
    pow_le_pow_of_le_one (by norm_num) (by norm_num) hk7
  have h7 : ((1/2 : ℚ)) ^ 7 = 1/128 := by norm_num
  nlinarith

/-- **C2 (amended).** Holding `carSpeed = 10` with no steering, no boost
and no obstacles, from rest: the planar speed `√(vx² + vz²)` stays bounded
by 20 = 2·|carSpeed| for all ticks, and from tick 71 on it lies within the
band `[19.8, 20]` — i.e. it converges to within a small tolerance of
**twice** the throttle target (the equilibrium of drive `300·|carSpeed|`
against drag `150·v`), not of the target itself. -/
theorem speed_bounded_twice_target (n : ℕ) :
    speedSq (cruiseRun n) ≤ 400 ∧
    (71 ≤ n → (99/5 : ℚ) ^ 2 ≤ speedSq (cruiseRun n)) := by
  obtain ⟨_, _, _, hvz, _, _, hvx, _, _, _⟩ := cruiseRun_spec n
  rw [speedSq, hvx, hvz]
  obtain ⟨h0, h20⟩ := vSeq_bounds n
  constructor
  · nlinarith
  · intro h71
    have h := vSeq_ge_198 n h71
    nlinarith

/-- Witness for C2's amended statement at tick 71. -/
theorem speed_bounded_twice_target_witness :
    speedSq (cruiseRun 71) ≤ 400 ∧
    (99/5 : ℚ) ^ 2 ≤ speedSq (cruiseRun 71) :=
  ⟨(speed_bounded_twice_target 71).1,
   (speed_bounded_twice_target 71).2 (le_refl 71)⟩

/-- **C2 counterexample.** At tick 100 of the cruise run the planar speed
squared exceeds `15² = 225` (indeed `(99/5)² = 392.04`), so the planar
speed does not converge to within any small tolerance of
`|throttleTarget| = 10`: the deviation exceeds 5 units forever (the
amended theorem keeps it at ≈20). -/
theorem speed_far_from_target :
    (15 : ℚ) ^ 2 < speedSq (cruiseRun 100) := by
  obtain ⟨_, _, _, hvz, _, _, hvx, _, _, _⟩ := cruiseRun_spec 100
  rw [speedSq, hvx, hvz]
  have h := vSeq_ge_198 100 (by norm_num)
  nlinarith

end Arcade
